import Mathlib

/-!
Shallow embedding of the replica-synchronization core of the `cirurgias`
repository: the SQLite merge (`db_merge.py`), the GitHub Contents-API blob
client and the sync orchestrator (`github_sync.py`).

Rows are modelled as records holding the columns named in the SQL statements
(the storage-assigned `id` columns are never copied by the merge and are
omitted); nullable columns are `Option` values, SQL `NULL` being `none`.
Natural-key columns are modelled as plain `String`s: every row written by the
application carries non-NULL key values, which is what makes the declared
UNIQUE constraints and `ON CONFLICT` clauses meaningful.  SQLite TEXT
comparison under the default BINARY collation is modelled by `String`
ordering.  A table is a `List` of rows; an `INSERT ... SELECT ... ON CONFLICT
DO UPDATE` statement is a fold of single-row upserts, which matches SQLite's
row-at-a-time execution because the source rows (a table satisfying the same
UNIQUE constraint) have pairwise distinct keys.
-/

/-- SQL `COALESCE` on two nullable values: the first non-NULL one. -/
def coalesce {α : Type} : Option α → Option α → Option α
  | some a, _ => some a
  | none, b => b

/-- Strict lexicographic order on character lists, the order SQLite's
BINARY collation gives TEXT values (memcmp over the UTF-8 encoding agrees
with code-point order). -/
def bytesLt : List Char → List Char → Bool
  | [], [] => false
  | [], _ :: _ => true
  | _ :: _, [] => false
  | a :: as, b :: bs => if a < b then true else if b < a then false else bytesLt as bs

/-- SQLite TEXT `<` under the default BINARY collation. -/
def textLt (a b : String) : Bool := bytesLt a.data b.data

/-- The `CASE` expression of `db_merge.py` resolving `updated_at` between the
local row (first argument) and the matching remote row (second argument):
`WHEN r IS NULL THEN l`, `WHEN l IS NULL THEN r`, `WHEN l > r THEN l`,
`ELSE r`. -/
def resolveUpdatedAt : Option String → Option String → Option String
  | lu, none => lu
  | none, some ru => some ru
  | some lu, some ru => if textLt ru lu then some lu else some ru

/-- A row of `pacientes_unicos_por_dia_prestador` (schema in `db.py`). -/
structure PacRow where
  Hospital : String
  Ano : Option Int
  Mes : Option Int
  Dia : Option Int
  Data : String
  Atendimento : String
  Paciente : String
  Aviso : Option String
  Convenio : Option String
  Prestador : String
  Quarto : Option String
deriving DecidableEq, Repr

/-- The UNIQUE tuple of the attendance table:
`UNIQUE(Hospital, Atendimento, Paciente, Prestador, Data)`. -/
def PacRow.key (r : PacRow) : String × String × String × String × String :=
  (r.Hospital, r.Atendimento, r.Paciente, r.Prestador, r.Data)

/-- A row of the catalog tables `procedimento_tipos` / `cirurgia_situacoes`. -/
structure CatRow where
  nome : String
  ativo : Option Int
  ordem : Option Int
deriving DecidableEq, Repr

/-- A row of `cirurgias` (schema in `db.py`). -/
structure CirRow where
  Hospital : String
  Atendimento : String
  Paciente : String
  Prestador : String
  Data_Cirurgia : String
  Convenio : Option String
  Procedimento_Tipo_ID : Option Int
  Situacao_ID : Option Int
  Guia_AMHPTISS : Option String
  Guia_AMHPTISS_Complemento : Option String
  Fatura : Option String
  Observacoes : Option String
  created_at : Option String
  updated_at : Option String
deriving DecidableEq, Repr

/-- The UNIQUE tuple of `cirurgias`:
`UNIQUE(Hospital, Atendimento, Paciente, Prestador, Data_Cirurgia)`. -/
def CirRow.key (r : CirRow) : String × String × String × String × String :=
  (r.Hospital, r.Atendimento, r.Paciente, r.Prestador, r.Data_Cirurgia)

/-- One `INSERT ... ON CONFLICT DO UPDATE` of a single source row, common
shape of the four statements of `merge_sqlite_dbs`:
`key` is the table's UNIQUE tuple, `mkIns` builds the row proposed for
insertion from the source row and the matching base row (the `LEFT JOIN`
result, the `excluded.*` values of the conflict clause), and `upd` applies
the `DO UPDATE SET` list to the conflicting base row. -/
def upsertBy {α κ : Type} [DecidableEq κ] (key : α → κ)
    (mkIns : α → Option α → α) (upd : α → α → α)
    (base : List α) (l : α) : List α :=
  match base.find? (fun r => decide (key r = key l)) with
  | none => base ++ [mkIns l none]
  | some r0 => base.map (fun r => if key r = key l then upd r (mkIns l (some r0)) else r)

/-- A whole `INSERT ... SELECT ... FROM localdb.<table> ON CONFLICT DO
UPDATE` statement: every source row upserted into the base, in order. -/
def mergeBy {α κ : Type} [DecidableEq κ] (key : α → κ)
    (mkIns : α → Option α → α) (upd : α → α → α)
    (base src : List α) : List α :=
  src.foldl (upsertBy key mkIns upd) base

/-- `DO UPDATE SET Aviso = excluded.Aviso, Convenio = excluded.Convenio,
Quarto = excluded.Quarto` of the attendance-table statement. -/
def pacUpdate (r i : PacRow) : PacRow :=
  { r with Aviso := i.Aviso, Convenio := i.Convenio, Quarto := i.Quarto }

/-- `DO UPDATE SET ativo = excluded.ativo, ordem = excluded.ordem` of the
catalog statements. -/
def catUpdate (r i : CatRow) : CatRow :=
  { r with ativo := i.ativo, ordem := i.ordem }

/-- The row proposed for insertion by the `cirurgias` statement: the local
row with `created_at := COALESCE(l.created_at, r.created_at)` and
`updated_at` resolved by the `CASE` expression against the `LEFT JOIN`ed
remote row. -/
def cirMkIns (l : CirRow) (r : Option CirRow) : CirRow :=
  { l with
    created_at := coalesce l.created_at (r.bind fun x => x.created_at),
    updated_at := resolveUpdatedAt l.updated_at (r.bind fun x => x.updated_at) }

/-- The `DO UPDATE SET` list of the `cirurgias` statement: every non-key
column except `created_at` is taken from `excluded`. -/
def cirUpdate (r i : CirRow) : CirRow :=
  { r with
    Convenio := i.Convenio,
    Procedimento_Tipo_ID := i.Procedimento_Tipo_ID,
    Situacao_ID := i.Situacao_ID,
    Guia_AMHPTISS := i.Guia_AMHPTISS,
    Guia_AMHPTISS_Complemento := i.Guia_AMHPTISS_Complemento,
    Fatura := i.Fatura,
    Observacoes := i.Observacoes,
    updated_at := i.updated_at }

/-- The content of one SQLite store file, one list of rows per table. -/
structure Store where
  pacientes_unicos_por_dia_prestador : List PacRow
  procedimento_tipos : List CatRow
  cirurgia_situacoes : List CatRow
  cirurgias : List CirRow
deriving DecidableEq, Repr

/-- `merge_sqlite_dbs(local_path, remote_path, output_path)` of
`db_merge.py`: the output starts as a copy of the remote store and every
local row is upserted into it, table by table, with the per-table conflict
policies of the four SQL statements. -/
def merge_sqlite_dbs (localdb remotedb : Store) : Store where
  pacientes_unicos_por_dia_prestador :=
    mergeBy PacRow.key (fun l _ => l) pacUpdate
      remotedb.pacientes_unicos_por_dia_prestador
      localdb.pacientes_unicos_por_dia_prestador
  procedimento_tipos :=
    mergeBy CatRow.nome (fun l _ => l) catUpdate
      remotedb.procedimento_tipos localdb.procedimento_tipos
  cirurgia_situacoes :=
    mergeBy CatRow.nome (fun l _ => l) catUpdate
      remotedb.cirurgia_situacoes localdb.cirurgia_situacoes
  cirurgias :=
    mergeBy CirRow.key cirMkIns cirUpdate
      remotedb.cirurgias localdb.cirurgias

/-- The rows of a table have pairwise distinct natural keys — what the
declared UNIQUE constraint guarantees of any table SQLite actually stores. -/
def nodupKeys {α κ : Type} (key : α → κ) (t : List α) : Prop :=
  (t.map key).Nodup

instance {α κ : Type} [DecidableEq κ] (key : α → κ) (t : List α) :
    Decidable (nodupKeys key t) := by
  unfold nodupKeys
  infer_instance

/-- Every table of the store satisfies its UNIQUE constraint. -/
def Store.valid (s : Store) : Prop :=
  nodupKeys PacRow.key s.pacientes_unicos_por_dia_prestador ∧
  nodupKeys CatRow.nome s.procedimento_tipos ∧
  nodupKeys CatRow.nome s.cirurgia_situacoes ∧
  nodupKeys CirRow.key s.cirurgias

instance (s : Store) : Decidable s.valid := by
  unfold Store.valid
  infer_instance

/-!
Model of `github_sync.py`.  Network traffic, file contents and the remote
host's behaviour are made explicit: the host is an oracle giving the response
of the preflight `GET` and, as a function of the `sha` carried by the
payload, the response of the `PUT`; each client function returns, next to its
Python return value, the list of requests it issued.  The body of the local
`.db` file is abstracted to the `Store` it serializes (`upload` only ever
forwards the raw bytes, so nothing is lost), with explicit cases for a
missing file and a zero-byte file, the two conditions `upload_db_to_github`
checks before talking to the network.
-/

/-- The state of the local `.db` path as `upload_db_to_github` probes it:
absent, present but zero bytes long, or a serialized store. -/
inductive LocalFile where
  | missing : LocalFile
  | empty : LocalFile
  | db : Store → LocalFile
deriving DecidableEq, Repr

/-- A network request issued by the client, reduced to what the claims
depend on: its verb and, for `PUT`, the revision token the payload carries
(`none` models a payload without a `sha` field, i.e. an unconditional
create). -/
inductive Req where
  | get : Req
  | put : Option String → Req
deriving DecidableEq, Repr

/-- The host's response to the Contents-API `GET`: its HTTP status and the
`sha` the client manages to extract from the body (`none` models a 404 body,
an unparseable body or a body without a `sha` field). -/
structure GetResp where
  status : Nat
  sha : Option String
deriving DecidableEq, Repr

/-- The host's response to the Contents-API `PUT`: status, the new blob
`sha` the client extracts from `content.sha` on success (`none` on parse
failure), and the raw body text used as the diagnostic message. -/
structure PutResp where
  status : Nat
  newSha : Option String
  body : String
deriving DecidableEq, Repr

/-- The remote host as seen by one `upload_db_to_github` call: one `GET`
response and a `PUT` response that may depend on the `sha` of the payload. -/
structure Host where
  getResp : GetResp
  putResp : Option String → PutResp

/-- Python truthiness of an optional string (`if not sha_to_use`, `if
sha_to_use`): `None` and the empty string are falsy. -/
def strTruthy : Option String → Bool
  | none => false
  | some s => !s.isEmpty

/-- The detailed return value of `upload_db_to_github` with
`_return_details=True`: `(ok, new_sha, status, message)`. -/
structure UploadResult where
  ok : Bool
  newSha : Option String
  status : Nat
  msg : String
deriving DecidableEq, Repr

/-- The tail of `upload_db_to_github` once `sha_to_use` is decided: build
the payload (a `sha` field only when `sha_to_use` is truthy), issue the
`PUT`, and classify the response (200/201 succeed, anything else is returned
with the host's body as the message). -/
def putStep (host : Host) (shaToUse : Option String) (soFar : List Req) :
    UploadResult × List Req :=
  let payloadSha := if strTruthy shaToUse then shaToUse else none
  let resp := host.putResp payloadSha
  let reqs := soFar ++ [Req.put payloadSha]
  if resp.status = 200 ∨ resp.status = 201 then
    (⟨true, resp.newSha, resp.status, "OK"⟩, reqs)
  else
    (⟨false, none, resp.status, resp.body⟩, reqs)

/-- `upload_db_to_github(..., prev_sha, _return_details=True)` of
`github_sync.py`, paired with the list of requests it issued.  The
existence and emptiness checks happen before any network traffic (the WAL
checkpoint between them is local and never raises, see
`checkpoint_sqlite`); with a falsy `prev_sha` a preflight `GET` decides
between update (200: reuse the remote's current `sha`) and create (404: no
`sha`), any other preflight status aborting the call. -/
def upload_db_to_github (host : Host) (file : LocalFile)
    (prevSha : Option String) : UploadResult × List Req :=
  match file with
  | .missing => (⟨false, none, 0, "Local db file not found"⟩, [])
  | .empty => (⟨false, none, 422, "Local db file is empty (0 bytes)"⟩, [])
  | .db _ =>
    if strTruthy prevSha then
      putStep host prevSha []
    else if host.getResp.status = 200 then
      putStep host host.getResp.sha [Req.get]
    else if host.getResp.status = 404 then
      putStep host none [Req.get]
    else
      (⟨false, none, host.getResp.status, "Preflight GET failed"⟩, [Req.get])

/-- The host's response to the download `GET`: status, the store decoded
from the base64 `content` field when the body parses and the field is
non-empty (`none` otherwise), and the blob `sha`. -/
structure DlResp where
  status : Nat
  content : Option Store
  sha : Option String

/-- The observable outcome of `download_db_from_github(...,
return_sha=True)`: the returned pair and what, if anything, was written to
the local path. -/
structure DlResult where
  found : Bool
  sha : Option String
  written : Option Store
deriving DecidableEq, Repr

/-- `download_db_from_github` of `github_sync.py` (the `return_sha=True`
variant used by the orchestrator): 404 and every other non-200 status fall
through to the same `(False, None)` return; on 200 a parse failure or a
missing/empty `content` field also returns `(False, None)`; otherwise the
decoded blob is written and `(True, sha)` returned. -/
def download_db_from_github (resp : DlResp) : DlResult :=
  if resp.status = 404 then ⟨false, none, none⟩
  else if resp.status ≠ 200 then ⟨false, none, none⟩
  else
    match resp.content with
    | none => ⟨false, none, none⟩
    | some blob => ⟨true, resp.sha, some blob⟩

/-- Which steps of `_checkpoint_sqlite` raise, for a given path and moment:
the `dispose_engine()` import/call, `sqlite3.connect`, the
`PRAGMA wal_checkpoint(TRUNCATE)` statement, and the `PRAGMA optimize`
statement. -/
structure CkptEnv where
  disposeRaises : Bool
  connectRaises : Bool
  walCheckpointRaises : Bool
  optimizeRaises : Bool
deriving DecidableEq, Repr

/-- Termination of a Python call: normal return or a propagated exception. -/
inductive PyOutcome where
  | ok : PyOutcome
  | exn : String → PyOutcome
deriving DecidableEq, Repr

/-- The body of the outer `try` of `_checkpoint_sqlite`: the
`dispose_engine` call sits in its own `try/except: pass` (so
`disposeRaises` never propagates), the `PRAGMA optimize` likewise, while
`sqlite3.connect` and the `wal_checkpoint` pragma raise freely. -/
def checkpointBody (e : CkptEnv) : PyOutcome :=
  if e.connectRaises then .exn "connect failed"
  else if e.walCheckpointRaises then .exn "wal_checkpoint failed"
  else .ok

/-- `_checkpoint_sqlite` of `github_sync.py`: the whole body is wrapped in
`try: ... except Exception: pass`. -/
def checkpoint_sqlite (e : CkptEnv) : PyOutcome :=
  match checkpointBody e with
  | .ok => .ok
  | .exn _ => .ok

/-- The world one `safe_upload_with_merge` run interacts with: the host
during the initial upload, the download response after a conflict, whether
`merge_sqlite_dbs` raises (e.g. schema mismatch in the SQLite files), and
the host during the re-upload. -/
structure SyncWorld where
  host1 : Host
  dlResp : DlResp
  mergeRaises : Bool
  host2 : Host

/-- The observable outcome of one `safe_upload_with_merge` run: its
detailed return value, the final content of the local `.db` path, and how
many times `merge_sqlite_dbs` and `upload_db_to_github` were invoked. -/
structure SafeResult where
  ok : Bool
  status : Nat
  msg : String
  finalFile : LocalFile
  mergeCalls : Nat
  uploadCalls : Nat

/-- `safe_upload_with_merge` of `github_sync.py`: one initial upload; on
status 409 one download, one merge that replaces the local file
(`shutil.move`), and one re-upload with the downloaded `sha` — any other
initial status, and any outcome of the re-upload, is terminal.  The
unreachable fallback arm mirrors `merge_sqlite_dbs` raising on a
non-database file (a 409 initial status in fact implies `file = .db`, and a
successful download implies a decoded blob). -/
def safe_upload_with_merge (w : SyncWorld) (file : LocalFile)
    (prevSha : Option String) : SafeResult :=
  let r1 := (upload_db_to_github w.host1 file prevSha).1
  if r1.ok && strTruthy r1.newSha then
    ⟨true, r1.status, "Upload OK", file, 0, 1⟩
  else if r1.status = 409 then
    let dl := download_db_from_github w.dlResp
    if dl.found = false then
      ⟨false, 409, "Conflito 409, mas falha ao baixar remoto", file, 0, 1⟩
    else
      match file, dl.written with
      | .db s, some remoteStore =>
        if w.mergeRaises then
          ⟨false, 409, "Falha no merge", file, 1, 1⟩
        else
          let merged := merge_sqlite_dbs s remoteStore
          let r2 := (upload_db_to_github w.host2 (.db merged) dl.sha).1
          if r2.ok && strTruthy r2.newSha then
            ⟨true, r2.status, "Upload após merge OK", .db merged, 1, 2⟩
          else
            ⟨false, r2.status, "Falha ao subir após merge: " ++ r2.msg,
              .db merged, 1, 2⟩
      | _, _ =>
        ⟨false, 409, "Falha no merge", file, 1, 1⟩
  else
    ⟨false, r1.status, "Falha inicial de upload: " ++ r1.msg, file, 0, 1⟩

/-!
Concrete inputs used by the counterexamples and witnesses below.
Timestamps are TEXT values; `"t1" < "t2"` under the BINARY collation.
-/

/-- A store with no rows at all. -/
def emptyStore : Store := ⟨[], [], [], []⟩

/-- The local copy's surgery row for the last-write-wins scenarios: key
`(H1, A1, P1, D1, 2024-01-10)`, older timestamp `t1`. -/
def c1Local : CirRow :=
  ⟨"H1", "A1", "P1", "D1", "2024-01-10", some "CONV", some 1, some 1,
    none, none, none, some "obs-local-old", some "c0", some "t1"⟩

/-- The remote copy's row with the same key, a different `Observacoes` and
the strictly newer timestamp `t2`. -/
def c1Remote : CirRow :=
  { c1Local with Observacoes := some "obs-remote-new", updated_at := some "t2" }

/-- Local store holding only `c1Local`. -/
def c1LocalStore : Store := ⟨[], [], [], [c1Local]⟩

/-- Remote store holding only `c1Remote`. -/
def c1RemoteStore : Store := ⟨[], [], [], [c1Remote]⟩

/-- Local surgery row for the `created_at` scenario: strictly newer
(`t2`), with a non-empty `created_at`. -/
def c2Local : CirRow :=
  ⟨"H1", "A1", "P1", "D1", "2024-01-10", some "CONV", some 1, some 1,
    none, none, none, some "obs-local", some "2024-01-01", some "t2"⟩

/-- Remote surgery row with the same key, older (`t1`) and with a NULL
`created_at`. -/
def c2Remote : CirRow :=
  { c2Local with
    Observacoes := some "obs-remote"
    created_at := none
    updated_at := some "t1" }

/-- Local store holding only `c2Local`. -/
def c2LocalStore : Store := ⟨[], [], [], [c2Local]⟩

/-- Remote store holding only `c2Remote`. -/
def c2RemoteStore : Store := ⟨[], [], [], [c2Remote]⟩

/-- A sample attendance row. -/
def exPac : PacRow :=
  ⟨"H1", some 2024, some 1, some 10, "2024-01-10", "A1", "P1",
    some "AV1", some "CONV", "D1", some "Q1"⟩

/-- A sample catalog row. -/
def exCat : CatRow := ⟨"tipo-a", some 1, some 1⟩

/-- Another sample catalog row. -/
def exCat2 : CatRow := ⟨"sit-a", some 1, some 1⟩

/-- A sample valid store, used as the local side of witnesses. -/
def exStoreA : Store := ⟨[exPac], [exCat], [exCat2], [c1Local]⟩

/-- A sample valid store whose rows all have keys absent from `exStoreA`,
used as the remote side of witnesses. -/
def exStoreB : Store :=
  ⟨[], [⟨"tipo-b", some 0, some 2⟩], [], [{ c1Remote with Atendimento := "A2" }]⟩

/-- Remote host for the create-vs-update scenario: the preflight `GET`
finds the file (status 200, current blob `remote-sha-1`) and the `PUT` is
accepted whatever it carries. -/
def c7Host : Host :=
  ⟨⟨200, some "remote-sha-1"⟩, fun _ => ⟨200, some "new-sha-2", "ok-body"⟩⟩

/-- Remote host whose preflight finds the file but whose `PUT` always
answers 409. -/
def c7AmHost : Host := ⟨⟨200, some "r2"⟩, fun _ => ⟨409, none, "conflict-body"⟩⟩

/-- A clean not-found download response. -/
def dl404 : DlResp := ⟨404, none, none⟩

/-- A server-error download response (with a parseable body, which the
code never reads past the status check). -/
def dl500 : DlResp := ⟨500, some emptyStore, some "s"⟩

/-- First-upload host of the double-conflict run: every `PUT` answers 409. -/
def c9Host1 : Host := ⟨⟨200, some "irrelevant"⟩, fun _ => ⟨409, none, "conflict1"⟩⟩

/-- Re-upload host of the double-conflict run: the `PUT` answers 409 again. -/
def c9Host2 : Host := ⟨⟨200, some "irrelevant"⟩, fun _ => ⟨409, none, "conflict2"⟩⟩

/-- The world of the double-conflict run: both uploads conflict, the
download in between succeeds with content `exStoreB` and blob `sha2`, and
the merge itself works. -/
def c9World : SyncWorld := ⟨c9Host1, ⟨200, some exStoreB, some "sha2"⟩, false, c9Host2⟩

/-!
Helper lemmas about the merge combinators.  None of them is a claim
theorem; the claim theorems below build on them.
-/

theorem coalesce_none_right {α : Type} (x : Option α) : coalesce x none = x := by
  cases x <;> rfl

theorem coalesce_self {α : Type} (x : Option α) : coalesce x x = x := by
  cases x <;> rfl

theorem resolveUpdatedAt_none_right (x : Option String) :
    resolveUpdatedAt x none = x := by
  cases x <;> rfl

theorem resolveUpdatedAt_self (x : Option String) : resolveUpdatedAt x x = x := by
  cases x with
  | none => rfl
  | some t => simp [resolveUpdatedAt]

theorem mergeBy_nil {α κ : Type} [DecidableEq κ] (key : α → κ)
    (mkIns : α → Option α → α) (upd : α → α → α) (base : List α) :
    mergeBy key mkIns upd base [] = base := rfl

theorem mergeBy_cons {α κ : Type} [DecidableEq κ] (key : α → κ)
    (mkIns : α → Option α → α) (upd : α → α → α) (base : List α) (hd : α)
    (tl : List α) :
    mergeBy key mkIns upd base (hd :: tl) =
      mergeBy key mkIns upd (upsertBy key mkIns upd base hd) tl := rfl

theorem mem_upsertBy_of_key_ne {α κ : Type} [DecidableEq κ] {key : α → κ}
    {mkIns : α → Option α → α} {upd : α → α → α} {base : List α} {l x : α}
    (hx : x ∈ base) (hne : key x ≠ key l) :
    x ∈ upsertBy key mkIns upd base l := by
  unfold upsertBy
  split
  · exact List.mem_append_left _ hx
  · exact List.mem_map.mpr ⟨x, hx, by simp [hne]⟩

theorem mem_mergeBy_of_src_misses {α κ : Type} [DecidableEq κ] {key : α → κ}
    {mkIns : α → Option α → α} {upd : α → α → α} {src : List α} {x : α} :
    ∀ {base : List α}, x ∈ base → (∀ l ∈ src, key l ≠ key x) →
      x ∈ mergeBy key mkIns upd base src := by
  induction src with
  | nil => intro base hx _; exact hx
  | cons hd tl ih =>
    intro base hx h
    rw [mergeBy_cons]
    exact ih (mem_upsertBy_of_key_ne hx (Ne.symm (h hd (List.mem_cons_self hd tl))))
      (fun l hl => h l (List.mem_cons_of_mem _ hl))

theorem key_mem_of_mem_upsertBy {α κ : Type} [DecidableEq κ] {key : α → κ}
    {mkIns : α → Option α → α} {upd : α → α → α}
    (hkeyIns : ∀ l r, key (mkIns l r) = key l)
    (hkeyUpd : ∀ r i, key (upd r i) = key r)
    {base : List α} {l x : α} (hx : x ∈ upsertBy key mkIns upd base l) :
    key x = key l ∨ key x ∈ base.map key := by
  unfold upsertBy at hx
  split at hx
  · rcases List.mem_append.mp hx with h | h
    · exact Or.inr (List.mem_map_of_mem key h)
    · rcases List.mem_singleton.mp h with rfl
      exact Or.inl (hkeyIns l none)
  · rcases List.mem_map.mp hx with ⟨r, hr, heq⟩
    by_cases hk : key r = key l
    · rw [if_pos hk] at heq
      rw [← heq, hkeyUpd]
      exact Or.inl hk
    · rw [if_neg hk] at heq
      rw [← heq]
      exact Or.inr (List.mem_map_of_mem key hr)

theorem key_ne_mergeBy {α κ : Type} [DecidableEq κ] {key : α → κ}
    {mkIns : α → Option α → α} {upd : α → α → α}
    (hkeyIns : ∀ l r, key (mkIns l r) = key l)
    (hkeyUpd : ∀ r i, key (upd r i) = key r)
    {src : List α} {k : κ} :
    ∀ {base : List α}, (∀ r ∈ base, key r ≠ k) → (∀ l ∈ src, key l ≠ k) →
      ∀ r ∈ mergeBy key mkIns upd base src, key r ≠ k := by
  induction src with
  | nil => intro base hb _ r hr; exact hb r hr
  | cons hd tl ih =>
    intro base hb hs
    rw [mergeBy_cons]
    apply ih ?_ (fun l hl => hs l (List.mem_cons_of_mem _ hl))
    intro r hr
    rcases key_mem_of_mem_upsertBy hkeyIns hkeyUpd hr with h1 | h2
    · rw [h1]; exact hs hd (List.mem_cons_self hd tl)
    · rcases List.mem_map.mp h2 with ⟨b, hbmem, hbeq⟩
      rw [← hbeq]; exact hb b hbmem

theorem mem_mergeBy_of_only_src {α κ : Type} [DecidableEq κ] {key : α → κ}
    {mkIns : α → Option α → α} {upd : α → α → α}
    (hkeyIns : ∀ l r, key (mkIns l r) = key l)
    (hkeyUpd : ∀ r i, key (upd r i) = key r)
    (hmkNone : ∀ l, mkIns l none = l)
    {src : List α} {l : α} :
    ∀ {base : List α}, l ∈ src → (src.map key).Nodup →
      (∀ r ∈ base, key r ≠ key l) → l ∈ mergeBy key mkIns upd base src := by
  induction src with
  | nil => intro base hl _ _; cases hl
  | cons hd tl ih =>
    intro base hl hnd hb
    rw [List.map_cons, List.nodup_cons] at hnd
    have hnd' := hnd
    rw [mergeBy_cons]
    rcases List.mem_cons.mp hl with rfl | hl'
    · have hfind : base.find? (fun r => decide (key r = key l)) = none :=
        List.find?_eq_none.mpr (fun r hr => by simpa using hb r hr)
      have hup : upsertBy key mkIns upd base l = base ++ [l] := by
        unfold upsertBy
        rw [hfind, hmkNone]
      rw [hup]
      have htl : ∀ l' ∈ tl, key l' ≠ key l := by
        intro l' hl' heq
        exact hnd'.1 (heq ▸ List.mem_map_of_mem key hl')
      exact mem_mergeBy_of_src_misses (List.mem_append_right _ (by simp)) htl
    · have hkhd : key hd ≠ key l := by
        intro heq
        exact hnd'.1 (heq ▸ List.mem_map_of_mem key hl')
      apply ih hl' hnd'.2
      intro r hr
      rcases key_mem_of_mem_upsertBy hkeyIns hkeyUpd hr with h1 | h2
      · rw [h1]; exact hkhd
      · rcases List.mem_map.mp h2 with ⟨b, hbmem, hbeq⟩
        rw [← hbeq]; exact hb b hbmem

theorem nodupKeys_upsertBy {α κ : Type} [DecidableEq κ] {key : α → κ}
    {mkIns : α → Option α → α} {upd : α → α → α}
    (hkeyIns : ∀ l r, key (mkIns l r) = key l)
    (hkeyUpd : ∀ r i, key (upd r i) = key r)
    {base : List α} (l : α) (h : (base.map key).Nodup) :
    ((upsertBy key mkIns upd base l).map key).Nodup := by
  unfold upsertBy
  split
  case h_1 hfind =>
    rw [List.map_append, List.map_singleton, hkeyIns]
    apply h.append (List.nodup_singleton _)
    intro a ha hb
    rcases List.mem_singleton.mp hb with rfl
    rcases List.mem_map.mp ha with ⟨r, hr, hw⟩
    have := List.find?_eq_none.mp hfind r hr
    simp only [decide_eq_true_eq] at this
    exact this hw
  case h_2 r0 _ =>
    have : (base.map fun r => if key r = key l then upd r (mkIns l (some r0)) else r).map key
        = base.map key := by
      rw [List.map_map]
      apply List.map_congr_left
      intro r _
      by_cases hk : key r = key l
      · simp [hk, hkeyUpd]
      · simp [hk]
    rw [this]
    exact h

theorem nodupKeys_mergeBy {α κ : Type} [DecidableEq κ] {key : α → κ}
    {mkIns : α → Option α → α} {upd : α → α → α}
    (hkeyIns : ∀ l r, key (mkIns l r) = key l)
    (hkeyUpd : ∀ r i, key (upd r i) = key r)
    {src : List α} :
    ∀ {base : List α}, (base.map key).Nodup →
      ((mergeBy key mkIns upd base src).map key).Nodup := by
  induction src with
  | nil => intro base h; exact h
  | cons hd tl ih =>
    intro base h
    rw [mergeBy_cons]
    exact ih (nodupKeys_upsertBy hkeyIns hkeyUpd hd h)

theorem find?_key_self {α κ : Type} [DecidableEq κ] {key : α → κ} {l : α} :
    ∀ {A : List α}, (A.map key).Nodup → l ∈ A →
      A.find? (fun r => decide (key r = key l)) = some l := by
  intro A
  induction A with
  | nil => intro _ hl; cases hl
  | cons hd tl ih =>
    intro hnd hl
    rw [List.map_cons, List.nodup_cons] at hnd
    by_cases hk : key hd = key l
    · rw [List.find?_cons_of_pos _ (by simpa using hk)]
      rcases List.mem_cons.mp hl with rfl | hl'
      · rfl
      · exact absurd (hk ▸ List.mem_map_of_mem key hl') hnd.1
    · rw [List.find?_cons_of_neg _ (by simpa using hk)]
      rcases List.mem_cons.mp hl with rfl | hl'
      · exact absurd rfl hk
      · exact ih hnd.2 hl'

theorem upsertBy_self {α κ : Type} [DecidableEq κ] {key : α → κ}
    {mkIns : α → Option α → α} {upd : α → α → α}
    (hselfUpd : ∀ x, upd x (mkIns x (some x)) = x)
    {A : List α} {l : α} (hnd : (A.map key).Nodup) (hl : l ∈ A) :
    upsertBy key mkIns upd A l = A := by
  unfold upsertBy
  rw [find?_key_self hnd hl]
  have hid : ∀ r ∈ A, (if key r = key l then upd r (mkIns l (some l)) else r) = r := by
    intro r hr
    by_cases hk : key r = key l
    · rw [if_pos hk, List.inj_on_of_nodup_map hnd hr hl hk, hselfUpd]
    · rw [if_neg hk]
  show (A.map fun r => if key r = key l then upd r (mkIns l (some l)) else r) = A
  rw [List.map_congr_left hid, List.map_id']

theorem mergeBy_self {α κ : Type} [DecidableEq κ] {key : α → κ}
    {mkIns : α → Option α → α} {upd : α → α → α}
    (hselfUpd : ∀ x, upd x (mkIns x (some x)) = x)
    {A : List α} (hnd : (A.map key).Nodup) :
    mergeBy key mkIns upd A A = A := by
  have main : ∀ (L : List α), (∀ x ∈ L, x ∈ A) → mergeBy key mkIns upd A L = A := by
    intro L
    induction L with
    | nil => intro _; rfl
    | cons hd tl ih =>
      intro h
      rw [mergeBy_cons, upsertBy_self hselfUpd hnd (h hd (List.mem_cons_self hd tl))]
      exact ih (fun x hx => h x (List.mem_cons_of_mem _ hx))
  exact main A (fun _ hx => hx)

/-!
The per-table facts feeding the generic lemmas: no `DO UPDATE SET` list
touches a key column, no proposed insert changes the source row's key, a
source row with no conflicting base row is inserted as-is, and upserting a
row onto itself is the identity.
-/

theorem pac_key_mkIns : ∀ (l : PacRow) (r : Option PacRow),
    PacRow.key ((fun l _ => l) l r) = PacRow.key l := fun _ _ => rfl

theorem pac_key_upd : ∀ (r i : PacRow), PacRow.key (pacUpdate r i) = PacRow.key r :=
  fun _ _ => rfl

theorem pac_selfUpd : ∀ (x : PacRow), pacUpdate x ((fun l _ => l) x (some x)) = x :=
  fun _ => rfl

theorem cat_key_mkIns : ∀ (l : CatRow) (r : Option CatRow),
    CatRow.nome ((fun l _ => l) l r) = CatRow.nome l := fun _ _ => rfl

theorem cat_key_upd : ∀ (r i : CatRow), CatRow.nome (catUpdate r i) = CatRow.nome r :=
  fun _ _ => rfl

theorem cat_selfUpd : ∀ (x : CatRow), catUpdate x ((fun l _ => l) x (some x)) = x :=
  fun _ => rfl

theorem cir_key_mkIns : ∀ (l : CirRow) (r : Option CirRow),
    CirRow.key (cirMkIns l r) = CirRow.key l := fun _ _ => rfl

theorem cir_key_upd : ∀ (r i : CirRow), CirRow.key (cirUpdate r i) = CirRow.key r :=
  fun _ _ => rfl

theorem cirMkIns_none (l : CirRow) : cirMkIns l none = l := by
  simp [cirMkIns, coalesce_none_right, resolveUpdatedAt_none_right]

theorem cirMkIns_self (l : CirRow) : cirMkIns l (some l) = l := by
  simp [cirMkIns, coalesce_self, resolveUpdatedAt_self]

theorem cir_selfUpd : ∀ (x : CirRow), cirUpdate x (cirMkIns x (some x)) = x := by
  intro x
  rw [cirMkIns_self]
  rfl

theorem putStep_ok_status (host : Host) (sha : Option String) (soFar : List Req) :
    (putStep host sha soFar).1.ok = true →
    (putStep host sha soFar).1.status = 200 ∨ (putStep host sha soFar).1.status = 201 := by
  simp only [putStep]
  split <;> split <;> intro h <;> simp_all

theorem upload_ok_status (host : Host) (f : LocalFile) (p : Option String) :
    (upload_db_to_github host f p).1.ok = true →
    (upload_db_to_github host f p).1.status = 200 ∨
      (upload_db_to_github host f p).1.status = 201 := by
  cases f with
  | missing => intro h; simp [upload_db_to_github] at h
  | empty => intro h; simp [upload_db_to_github] at h
  | db s =>
    simp only [upload_db_to_github]
    split
    · exact putStep_ok_status host p []
    · split
      · exact putStep_ok_status host host.getResp.sha [Req.get]
      · split
        · exact putStep_ok_status host none [Req.get]
        · intro h; simp at h

theorem putStep_reqs (host : Host) (sha : Option String) (soFar : List Req) :
    (putStep host sha soFar).2 =
      soFar ++ [Req.put (if strTruthy sha then sha else none)] := by
  simp only [putStep]
  split <;> split <;> rfl

/-- Claim C1: the spec says that on a `cirurgias` key collision the row with
the strictly newer `updated_at` fully wins, so when the remote base row is
newer its non-key fields (in particular `Observacoes`) and its `updated_at`
should all survive.  Evaluating `merge_sqlite_dbs` at such a pair shows the
code instead keeps the local (older) row's `Observacoes` — the `DO UPDATE
SET` list takes every non-key field from `excluded` (the local row)
unconditionally and only `updated_at` is resolved to the newer value,
contradicting the module's own "last-write-wins por updated_at" rule. -/
theorem c1_lww_newer_remote_does_not_fully_win :
    textLt "t1" "t2" = true ∧
    c1Local.updated_at = some "t1" ∧
    c1Remote.updated_at = some "t2" ∧
    c1Remote.Observacoes = some "obs-remote-new" ∧
    (merge_sqlite_dbs c1LocalStore c1RemoteStore).cirurgias =
      [{ c1Remote with Observacoes := some "obs-local-old" }] ∧
    ¬ ((merge_sqlite_dbs c1LocalStore c1RemoteStore).cirurgias.map
        (fun r => r.Observacoes) = [c1Remote.Observacoes]) := by
  decide

/-- Claim C2: for a collision where the local side is strictly newer, the
spec says the merged `created_at` is the remote's when non-empty and the
local's otherwise.  Evaluating `merge_sqlite_dbs` where the remote's
`created_at` is NULL and the local's is non-empty shows the merged row keeps
NULL: the `DO UPDATE SET` list simply omits `created_at`, discarding the
`COALESCE(l.created_at, r.created_at)` value the SELECT computed — also
contradicting the module's own "created_at é mantido via COALESCE" rule.
Every other field of the merged row does equal the local row's. -/
theorem c2_created_at_not_restored_on_conflict :
    textLt "t1" "t2" = true ∧
    c2Local.updated_at = some "t2" ∧
    c2Remote.updated_at = some "t1" ∧
    c2Local.created_at = some "2024-01-01" ∧
    c2Remote.created_at = none ∧
    (merge_sqlite_dbs c2LocalStore c2RemoteStore).cirurgias =
      [{ c2Local with created_at := none }] ∧
    ¬ ((merge_sqlite_dbs c2LocalStore c2RemoteStore).cirurgias.map
        (fun r => r.created_at) = [c2Local.created_at]) := by
  decide

/-- Claim C3: a row whose natural key occurs in only one of the two input
stores reaches the output of `merge_sqlite_dbs` unchanged, in every one of
the four tables — rows only in the local source are inserted as-is (the
`COALESCE`/`CASE` expressions degenerate to the local values when the `LEFT
JOIN` finds no match), rows only in the remote base are never touched. -/
theorem c3_one_sided_rows_unchanged (A B : Store) (hA : A.valid) :
    (∀ x ∈ A.pacientes_unicos_por_dia_prestador,
      (∀ r ∈ B.pacientes_unicos_por_dia_prestador, PacRow.key r ≠ PacRow.key x) →
      x ∈ (merge_sqlite_dbs A B).pacientes_unicos_por_dia_prestador) ∧
    (∀ x ∈ B.pacientes_unicos_por_dia_prestador,
      (∀ l ∈ A.pacientes_unicos_por_dia_prestador, PacRow.key l ≠ PacRow.key x) →
      x ∈ (merge_sqlite_dbs A B).pacientes_unicos_por_dia_prestador) ∧
    (∀ x ∈ A.procedimento_tipos,
      (∀ r ∈ B.procedimento_tipos, CatRow.nome r ≠ CatRow.nome x) →
      x ∈ (merge_sqlite_dbs A B).procedimento_tipos) ∧
    (∀ x ∈ B.procedimento_tipos,
      (∀ l ∈ A.procedimento_tipos, CatRow.nome l ≠ CatRow.nome x) →
      x ∈ (merge_sqlite_dbs A B).procedimento_tipos) ∧
    (∀ x ∈ A.cirurgia_situacoes,
      (∀ r ∈ B.cirurgia_situacoes, CatRow.nome r ≠ CatRow.nome x) →
      x ∈ (merge_sqlite_dbs A B).cirurgia_situacoes) ∧
    (∀ x ∈ B.cirurgia_situacoes,
      (∀ l ∈ A.cirurgia_situacoes, CatRow.nome l ≠ CatRow.nome x) →
      x ∈ (merge_sqlite_dbs A B).cirurgia_situacoes) ∧
    (∀ x ∈ A.cirurgias,
      (∀ r ∈ B.cirurgias, CirRow.key r ≠ CirRow.key x) →
      x ∈ (merge_sqlite_dbs A B).cirurgias) ∧
    (∀ x ∈ B.cirurgias,
      (∀ l ∈ A.cirurgias, CirRow.key l ≠ CirRow.key x) →
      x ∈ (merge_sqlite_dbs A B).cirurgias) := by
  obtain ⟨hA1, hA2, hA3, hA4⟩ := hA
  refine ⟨?_, ?_, ?_, ?_, ?_, ?_, ?_, ?_⟩
  · intro x hx hb
    exact mem_mergeBy_of_only_src pac_key_mkIns pac_key_upd (fun _ => rfl) hx hA1 hb
  · intro x hx h
    exact mem_mergeBy_of_src_misses hx h
  · intro x hx hb
    exact mem_mergeBy_of_only_src cat_key_mkIns cat_key_upd (fun _ => rfl) hx hA2 hb
  · intro x hx h
    exact mem_mergeBy_of_src_misses hx h
  · intro x hx hb
    exact mem_mergeBy_of_only_src cat_key_mkIns cat_key_upd (fun _ => rfl) hx hA3 hb
  · intro x hx h
    exact mem_mergeBy_of_src_misses hx h
  · intro x hx hb
    exact mem_mergeBy_of_only_src cir_key_mkIns cir_key_upd cirMkIns_none hx hA4 hb
  · intro x hx h
    exact mem_mergeBy_of_src_misses hx h

/-- Witness for C3: `exStoreA`'s surgery row's key is absent from
`exStoreB`, and the row indeed survives the merge unchanged. -/
theorem c3_one_sided_rows_unchanged_witness :
    c1Local ∈ (merge_sqlite_dbs exStoreA exStoreB).cirurgias :=
  (c3_one_sided_rows_unchanged exStoreA exStoreB (by decide)).2.2.2.2.2.2.1
    c1Local (by decide) (by decide)

/-- Claim C4: for valid inputs, every table of the merged store is still
free of duplicate natural keys — the base starts unique and each upsert
either updates in place (keys unchanged) or appends a key that was absent. -/
theorem c4_unique_keys_preserved (A B : Store) (_hA : A.valid) (hB : B.valid) :
    (merge_sqlite_dbs A B).valid := by
  obtain ⟨hB1, hB2, hB3, hB4⟩ := hB
  exact ⟨nodupKeys_mergeBy pac_key_mkIns pac_key_upd hB1,
    nodupKeys_mergeBy cat_key_mkIns cat_key_upd hB2,
    nodupKeys_mergeBy cat_key_mkIns cat_key_upd hB3,
    nodupKeys_mergeBy cir_key_mkIns cir_key_upd hB4⟩

/-- Witness for C4 at two concrete valid stores whose surgery tables
collide on a key. -/
theorem c4_unique_keys_preserved_witness :
    (merge_sqlite_dbs exStoreA c1RemoteStore).valid :=
  c4_unique_keys_preserved exStoreA c1RemoteStore (by decide) (by decide)

/-- Claim C5: merging a valid store with itself returns it exactly — every
upsert of a row onto itself is the identity, so there is no duplication and
no field drift. -/
theorem c5_merge_self_idempotent (A : Store) (hA : A.valid) :
    merge_sqlite_dbs A A = A := by
  obtain ⟨h1, h2, h3, h4⟩ := hA
  unfold merge_sqlite_dbs
  rw [mergeBy_self pac_selfUpd h1, mergeBy_self cat_selfUpd h2,
    mergeBy_self cat_selfUpd h3, mergeBy_self cir_selfUpd h4]

/-- Witness for C5 at a concrete store with a row in every table. -/
theorem c5_merge_self_idempotent_witness :
    merge_sqlite_dbs exStoreA exStoreA = exStoreA :=
  c5_merge_self_idempotent exStoreA (by decide)

/-- Claim C6: when the local file exists but is 0 bytes long,
`upload_db_to_github` returns `(ok=False, new_sha=None, 422, "Local db file
is empty (0 bytes)")` and issues no network request at all, for every host
and every `prev_sha` — the emptiness check sits before the preflight `GET`
and the `PUT`, so no revision token is consumed or produced. -/
theorem c6_empty_file_rejected_before_network (host : Host) (prevSha : Option String) :
    upload_db_to_github host LocalFile.empty prevSha =
      (⟨false, none, 422, "Local db file is empty (0 bytes)"⟩, []) := rfl

/-- Claim C7 counterexample: with `prev_sha = None` against a remote that
already has content (preflight `GET` answers 200 with the current blob
`remote-sha-1`), the client does not request an unconditional create — the
single `PUT` it issues carries the remote's `sha`, i.e. a conditional
update — and the call succeeds instead of surfacing a conflict. -/
theorem c7_prev_sha_none_not_create_counterexample :
    upload_db_to_github c7Host (LocalFile.db emptyStore) none =
      (⟨true, some "new-sha-2", 200, "OK"⟩, [Req.get, Req.put (some "remote-sha-1")]) ∧
    Req.put none ∉ (upload_db_to_github c7Host (LocalFile.db emptyStore) none).2 := by
  decide

/-- Claim C7 as amended: with `prev_sha = None` the client first issues a
preflight `GET`; on 200 the `PUT` is a conditional update carrying the
remote's current `sha` (when one was extracted and is non-empty), on 404
the `PUT` is an unconditional create with no `sha`, and on any other
preflight status the call aborts with that status without issuing the
`PUT`. -/
theorem c7_preflight_decides_create_or_update (host : Host) (s : Store) :
    (host.getResp.status = 200 →
      (upload_db_to_github host (LocalFile.db s) none).2 =
        [Req.get, Req.put (if strTruthy host.getResp.sha then host.getResp.sha else none)]) ∧
    (host.getResp.status = 404 →
      (upload_db_to_github host (LocalFile.db s) none).2 = [Req.get, Req.put none]) ∧
    (host.getResp.status ≠ 200 → host.getResp.status ≠ 404 →
      upload_db_to_github host (LocalFile.db s) none =
        (⟨false, none, host.getResp.status, "Preflight GET failed"⟩, [Req.get])) := by
  refine ⟨?_, ?_, ?_⟩
  · intro h
    simp [upload_db_to_github, strTruthy, h, putStep_reqs]
  · intro h
    simp [upload_db_to_github, strTruthy, h, putStep_reqs]
  · intro h1 h2
    simp [upload_db_to_github, strTruthy, h1, h2]

/-- Witness for the amended C7: a host whose preflight answers 200 with
blob `r2` receives a conditional update carrying `r2`. -/
theorem c7_preflight_decides_create_or_update_witness :
    (upload_db_to_github c7AmHost (LocalFile.db emptyStore) none).2 =
      [Req.get, Req.put (some "r2")] := by
  rw [(c7_preflight_decides_create_or_update c7AmHost emptyStore).1 rfl]
  decide

/-- Claim C8 counterexample: `download_db_from_github` returns the very
same value for a 404 (clean not-found) and for a 500 (server error, even
with a parseable body) — a transport/protocol failure is not
distinguishable from not-found in the function's return value. -/
theorem c8_not_found_equals_transport_error_counterexample :
    download_db_from_github dl404 = download_db_from_github dl500 ∧
    download_db_from_github dl404 = ⟨false, none, none⟩ ∧
    dl404.status = 404 ∧ dl500.status = 500 := by
  decide

/-- Claim C8 as amended: every non-200 response — 404 or any other status —
produces the identical `(False, None)` result with nothing written, so
callers cannot tell a transport or protocol failure apart from a clean
not-found by the return value. -/
theorem c8_non200_same_result (resp : DlResp) (h : resp.status ≠ 200) :
    download_db_from_github resp = ⟨false, none, none⟩ := by
  unfold download_db_from_github
  by_cases h404 : resp.status = 404
  · rw [if_pos h404]
  · rw [if_neg h404, if_pos h]

/-- Witness for the amended C8 at the 500 response. -/
theorem c8_non200_same_result_witness :
    download_db_from_github dl500 = ⟨false, none, none⟩ :=
  c8_non200_same_result dl500 (by decide)

/-- Claim C9: when the initial publish ends with status 409 and the
conflict path runs (download succeeds with content `rs`, the merge does not
raise) but the republish is not a success, `safe_upload_with_merge`
terminates in failure with the local file left as the merged copy — and in
every possible run the merge is invoked at most once and no third upload is
ever attempted. -/
theorem c9_single_retry_terminal_failure_keeps_merged (w : SyncWorld) (s rs : Store)
    (prevSha : Option String)
    (h409 : (upload_db_to_github w.host1 (LocalFile.db s) prevSha).1.status = 409)
    (hdlStatus : w.dlResp.status = 200) (hdlContent : w.dlResp.content = some rs)
    (hmerge : w.mergeRaises = false)
    (hfail : ((upload_db_to_github w.host2
          (LocalFile.db (merge_sqlite_dbs s rs)) w.dlResp.sha).1.ok &&
        strTruthy (upload_db_to_github w.host2
          (LocalFile.db (merge_sqlite_dbs s rs)) w.dlResp.sha).1.newSha) = false) :
    (safe_upload_with_merge w (LocalFile.db s) prevSha).ok = false ∧
    (safe_upload_with_merge w (LocalFile.db s) prevSha).finalFile =
      LocalFile.db (merge_sqlite_dbs s rs) ∧
    (safe_upload_with_merge w (LocalFile.db s) prevSha).mergeCalls = 1 ∧
    (safe_upload_with_merge w (LocalFile.db s) prevSha).uploadCalls = 2 ∧
    (∀ (w2 : SyncWorld) (f : LocalFile) (p : Option String),
      (safe_upload_with_merge w2 f p).mergeCalls ≤ 1 ∧
      (safe_upload_with_merge w2 f p).uploadCalls ≤ 2) := by
  have hok : (upload_db_to_github w.host1 (LocalFile.db s) prevSha).1.ok = false := by
    rcases hb : (upload_db_to_github w.host1 (LocalFile.db s) prevSha).1.ok with _ | _
    · rfl
    · rcases upload_ok_status _ _ _ hb with h | h <;> rw [h409] at h <;> simp at h
  have hdl : download_db_from_github w.dlResp = ⟨true, w.dlResp.sha, some rs⟩ := by
    unfold download_db_from_github
    rw [hdlStatus, hdlContent]
    simp
  have hbound : ∀ (w2 : SyncWorld) (f : LocalFile) (p : Option String),
      (safe_upload_with_merge w2 f p).mergeCalls ≤ 1 ∧
      (safe_upload_with_merge w2 f p).uploadCalls ≤ 2 := by
    intro w2 f p
    simp only [safe_upload_with_merge]
    repeat' split
    all_goals exact ⟨by simp, by simp⟩
  refine ⟨?_, ?_, ?_, ?_, hbound⟩ <;>
    simp [safe_upload_with_merge, hok, h409, hdl, hmerge, hfail]

/-- Witness for C9: both uploads of `c9World` answer 409 and the download
in between succeeds, so the run fails with the merged store on disk after
exactly one merge and two uploads. -/
theorem c9_single_retry_terminal_failure_keeps_merged_witness :
    (safe_upload_with_merge c9World (LocalFile.db exStoreA) (some "stale")).ok = false ∧
    (safe_upload_with_merge c9World (LocalFile.db exStoreA) (some "stale")).finalFile =
      LocalFile.db (merge_sqlite_dbs exStoreA exStoreB) ∧
    (safe_upload_with_merge c9World (LocalFile.db exStoreA) (some "stale")).mergeCalls = 1 ∧
    (safe_upload_with_merge c9World (LocalFile.db exStoreA) (some "stale")).uploadCalls = 2 := by
  have h := c9_single_retry_terminal_failure_keeps_merged c9World exStoreA exStoreB
    (some "stale") (by decide) rfl rfl rfl (by decide)
  exact ⟨h.1, h.2.1, h.2.2.1, h.2.2.2.1⟩

/-- Claim C10: `_checkpoint_sqlite` never lets an exception escape — its
whole body is wrapped in `try/except Exception: pass` — even when the WAL
fold step itself (`PRAGMA wal_checkpoint(TRUNCATE)`) raises, not only the
advisory `PRAGMA optimize` sub-step; the second conjunct shows the fold
step's failure really does raise inside the body before being swallowed. -/
theorem c10_checkpoint_never_raises :
    (∀ (e : CkptEnv), checkpoint_sqlite e = PyOutcome.ok) ∧
    checkpointBody ⟨false, false, true, false⟩ =
      PyOutcome.exn "wal_checkpoint failed" := by
  constructor
  · intro e
    unfold checkpoint_sqlite
    cases h : checkpointBody e <;> rfl
  · rfl
